import Mathlib

/-!
Verification of the optiapp2 form components.

The development shallowly embeds the pure logic of the repository:

* the calendar arithmetic of the follow-up preview
  (src/Staff_Availability.tsx, addInterval);
* the inclusive business-day counter and leave-duration calculator of the
  leave-request form (src/Staff_Availability.tsx, diffBusinessDaysInclusive
  and totalDays);
* the provisional follow-up date sync effect
  (src/Staff_Availability.tsx, EyePrescriptionFollowUpPreview);
* the zod validation of the payment form (src/Incident-Report-v2.tsx,
  paymentFormSchema) and of the lens-order form (src/unnamed/part_000,
  lensOrderSchema), as lists of field-scoped issues;
* the incident-report submission payload (src/Incident-Report-v2.tsx,
  useForm defaultValues and handleSubmit).

JavaScript numbers are modelled as rationals (ℚ); JavaScript Dates are
modelled either as civil calendar dates (year/month/day, for the code that
manipulates calendar components) or as integer day numbers counted from the
Unix epoch 1970-01-01 (for the code that only compares and iterates dates).
-/

/-! ## Calendar dates

Model of a JavaScript Date's calendar components (local time): year, a month
in 1..12 and a day of month in 1..31.  `addInterval` in the source mutates
these components and relies on the Date normalisation of ECMAScript MakeDay:
an out-of-range day-of-month rolls over into the following months. -/

structure CivilDate where
  year : Int
  month : Nat
  day : Nat
deriving DecidableEq

/-- Gregorian leap-year rule, as used by JavaScript Date normalisation. -/
def isLeapYear (y : Int) : Bool :=
  (y % 4 == 0 && y % 100 != 0) || y % 400 == 0

/-- Number of days in a month of a given year. -/
def daysInMonth (y : Int) (m : Nat) : Nat :=
  if m = 2 then (if isLeapYear y then 29 else 28)
  else if m = 4 ∨ m = 6 ∨ m = 9 ∨ m = 11 then 30
  else 31

/-- The calendar day following a (valid) calendar day, rolling over month and
year boundaries: the single normalisation step underlying JavaScript date
arithmetic. -/
def nextDay (dt : CivilDate) : CivilDate :=
  if dt.day < daysInMonth dt.year dt.month then ⟨dt.year, dt.month, dt.day + 1⟩
  else if dt.month < 12 then ⟨dt.year, dt.month + 1, 1⟩
  else ⟨dt.year + 1, 1, 1⟩

/-- Adding `n` calendar days: `d.setDate(d.getDate() + n)` in the source. -/
def addDays (dt : CivilDate) (n : Nat) : CivilDate :=
  Nat.rec dt (fun _ acc => nextDay acc) n

/-- Adding `n` months to the month component:
`d.setMonth(d.getMonth() + n)` in the source.  Per ECMAScript MakeDay the
year/month are normalised first and the (unchanged) day-of-month is then laid
out from the first of the new month, so day-of-month overflow rolls into the
following month. -/
def addMonths (dt : CivilDate) (n : Nat) : CivilDate :=
  let midx : Int := (dt.month : Int) - 1 + n
  let y : Int := dt.year + midx / 12
  let m : Nat := (midx % 12).toNat + 1
  addDays ⟨y, m, 1⟩ (dt.day - 1)

/-- src/Staff_Availability.tsx, addInterval: the follow-up offset calculator.
The three `if` statements of the source are applied in sequence to the copied
date; the unit is the raw string of the select field. -/
def addInterval (date : CivilDate) (amount : Nat) (unit : String) : CivilDate :=
  let d := date
  let d := if unit = "days" then addDays d amount else d
  let d := if unit = "weeks" then addDays d (amount * 7) else d
  let d := if unit = "months" then addMonths d amount else d
  d

/-! ## Day numbers

The leave-request form parses its ISO date strings at local noon
(parseISODate) and then only compares dates and steps them one day at a time,
so a date there is modelled by its day number: the number of calendar days
since 1970-01-01 (day 0).  `daysFromCivil` is the standard civil-from-days
conversion and lets concrete calendar dates appear in statements. -/

/-- Day number (days since 1970-01-01) of a civil date. -/
def daysFromCivil (y : Int) (m : Nat) (d : Nat) : Int :=
  let y' : Int := if m ≤ 2 then y - 1 else y
  let era : Int := (if 0 ≤ y' then y' else y' - 399) / 400
  let yoe : Int := y' - era * 400
  let mp : Int := (if 2 < m then (m : Int) - 3 else (m : Int) + 9)
  let doy : Int := (153 * mp + 2) / 5 + d - 1
  let doe : Int := yoe * 365 + yoe / 4 - yoe / 100 + doy
  era * 146097 + doe - 719468

/-- JavaScript getDay() on a day number: 0 = Sunday .. 6 = Saturday.
Day 0 (1970-01-01) was a Thursday (= 4). -/
def jsDayOfWeek (n : Int) : Int := (n + 4).emod 7

/-- src/Staff_Availability.tsx, isWeekend: Sunday or Saturday. -/
def isWeekend (n : Int) : Bool :=
  jsDayOfWeek n == 0 || jsDayOfWeek n == 6

/-- Number of weekdays among the `len` consecutive days starting at day `s`:
the loop body of diffBusinessDaysInclusive, one day per step. -/
def countWeekdays (s : Int) : Nat → Nat
  | 0 => 0
  | len + 1 => (if isWeekend s then 0 else 1) + countWeekdays (s + 1) len

/-- src/Staff_Availability.tsx, diffBusinessDaysInclusive.  A missing date
(parseISODate returned null) is `none`; an inverted range returns 0; otherwise
the cursor walks from start to end inclusive counting non-weekend days. -/
def diffBusinessDaysInclusive : Option Int → Option Int → Nat
  | none, _ => 0
  | some _, none => 0
  | some s, some e => if e < s then 0 else countWeekdays s (e - s + 1).toNat

/-- src/Staff_Availability.tsx, totalDays (the memo in
LeaveRequestInitiation).  `s` and `e` are the day numbers of the parsed start
and end dates; `s ≠ e` models `startDate !== endDate` (parseISODate maps
distinct valid ISO strings to distinct day numbers).  The result is a
JavaScript number, modelled as ℚ. -/
def totalDays (s e : Int) (halfStart halfEnd : Bool) : ℚ :=
  let days : ℚ := (diffBusinessDaysInclusive (some s) (some e) : ℚ)
  if days = 0 then 0
  else
    let d1 : ℚ := if halfStart then days - 1/2 else days
    let d2 : ℚ := if halfEnd ∧ s ≠ e then d1 - 1/2 else d1
    if d2 < 0 then 0 else d2

example : daysFromCivil 1970 1 1 = 0 := by decide
example : daysFromCivil 2025 1 6 = 20094 := by decide
example : jsDayOfWeek (daysFromCivil 2025 1 6) = 1 := by decide
example : isWeekend (daysFromCivil 2025 1 4) = true := by decide
example : addInterval ⟨2025, 1, 1⟩ 2 "weeks" = ⟨2025, 1, 15⟩ := by decide

/-! ## Follow-up preview state

src/Staff_Availability.tsx, EyePrescriptionFollowUpPreview.  The watched
fields relevant to the provisional-date sync: `followUpIntervalValue` is
modelled after `parseInt` (none = NaN), `followUpIntervalUnit` is the raw
select string (default ""), `provisionalFollowUpDate` is the DatePicker value
(none = null; a Date object is always truthy). -/

structure FollowUpState where
  followUp : Bool
  followUpIntervalValue : Option Nat
  followUpIntervalUnit : String
  provisionalFollowUpDate : Option CivilDate
  showProvisional : Bool
deriving DecidableEq

/-- The computedProvisionalDate memo: `parseInt(intervalValue)` must be
truthy (not NaN and not 0), the unit string truthy (non-empty) and
showProvisional set; otherwise null.  `now` is the injected current date
(`new Date()` in the source). -/
def computedProvisionalDate (now : CivilDate) (st : FollowUpState) : Option CivilDate :=
  match st.followUpIntervalValue with
  | none => none
  | some v =>
    if st.showProvisional ∧ v ≠ 0 ∧ st.followUpIntervalUnit ≠ ""
    then some (addInterval now v st.followUpIntervalUnit)
    else none

/-- The sync useEffect: write the computed date into the
provisionalFollowUpDate field only when showProvisional is set, a computed
date exists, and the field is currently empty (null). -/
def syncProvisionalEffect (now : CivilDate) (st : FollowUpState) : FollowUpState :=
  if st.showProvisional ∧ (computedProvisionalDate now st).isSome
      ∧ st.provisionalFollowUpDate.isNone
  then { st with provisionalFollowUpDate := computedProvisionalDate now st }
  else st

/-! ## Validation issues

A zod issue scoped to a field path.  Validation is modelled as the list of
issues a parse of the form value produces, in emission order. -/

structure Issue where
  path : String
  message : String
deriving DecidableEq

/-- Number of issues in a list against a given field path. -/
def countPath : List Issue → String → Nat
  | [], _ => 0
  | i :: rest, p => (if i.path = p then 1 else 0) + countPath rest p

/-- A zod optional string is blank when it is absent or trims to the empty
string: the `!v || v.trim() === ""` / `!v?.trim()` test of the source
(an empty string is itself falsy, so the two JavaScript forms agree). -/
def isBlank : Option String → Bool
  | none => true
  | some s => s.trim = ""

/-! ## Payment form

src/Incident-Report-v2.tsx, paymentFormSchema and OrderPaymentForm.
Numbers are rationals; `paymentMethod` is none while the select has no
value (the form starts it undefined).  zod runs the `.superRefine`
refinements only when the base object parse produced no type-level
(invalid_type / required) failure; in this schema the only possible
type-level failure is a missing paymentMethod, while the `.gt` / `.min`
check failures are value-level and do not block the refinements. -/

inductive PaymentMethod where
  | cash
  | card
  | bankTransfer
  | other
deriving DecidableEq

structure PaymentData where
  orderId : String
  customerName : String
  orderDate : String
  frameSubtotal : ℚ
  lensesSubtotal : ℚ
  repairsSubtotal : ℚ
  totalOrderAmount : ℚ
  paymentsMadeToDate : ℚ
  balance : ℚ
  amountPaidToday : ℚ
  paymentMethod : Option PaymentMethod
  paymentMethodOther : Option String
  paymentReferenceNumber : Option String
  processedBy : String
  paymentDate : String

/-- Field-level checks of paymentFormSchema, in declaration order:
`amountPaidToday` must exceed 0, `paymentMethod` is required, `processedBy`
and `paymentDate` must be non-empty strings. -/
def paymentFieldIssues (d : PaymentData) : List Issue :=
  (if d.amountPaidToday ≤ 0
    then [⟨"amountPaidToday", "Amount must be greater than 0"⟩] else []) ++
  (match d.paymentMethod with
    | none => [⟨"paymentMethod", "Payment method is required"⟩]
    | some _ => []) ++
  (if d.processedBy.length < 1
    then [⟨"processedBy", "Processed By is required"⟩] else []) ++
  (if d.paymentDate.length < 1
    then [⟨"paymentDate", "Payment date is required"⟩] else [])

/-- The `.superRefine` body of paymentFormSchema, in source order:
over-balance amounts, "Other" payment method without specification, and
missing payment reference for Card / Bank Transfer. -/
def paymentRefineIssues (d : PaymentData) : List Issue :=
  (if d.balance < d.amountPaidToday
    then [⟨"amountPaidToday", "Amount cannot exceed balance"⟩] else []) ++
  (if d.paymentMethod = some PaymentMethod.other ∧ isBlank d.paymentMethodOther
    then [⟨"paymentMethodOther", "Please specify the other payment method"⟩] else []) ++
  (if (d.paymentMethod = some PaymentMethod.card
        ∨ d.paymentMethod = some PaymentMethod.bankTransfer)
      ∧ isBlank d.paymentReferenceNumber
    then [⟨"paymentReferenceNumber", "Payment reference is required for this method"⟩]
    else [])

/-- A full validation pass over the payment form: field issues always, the
refinements only when the base parse did not abort (paymentMethod present). -/
def paymentParseIssues (d : PaymentData) : List Issue :=
  match d.paymentMethod with
  | none => paymentFieldIssues d
  | some _ => paymentFieldIssues d ++ paymentRefineIssues d

/-- The remainingBalance memo of OrderPaymentForm:
`Math.max(balance - amount, 0)` (the NaN and finiteness guards of the source
are vacuous over ℚ). -/
def remainingBalance (balance amount : ℚ) : ℚ :=
  max (balance - amount) 0

/-- Rounding a monetary value to the cent, as the spec prescribes for
monetary comparisons (fixed-point with two decimal places).  Stated from the
spec to compare against the source, which compares raw values. -/
def roundToCent (q : ℚ) : ℚ :=
  (round (q * 100) : ℤ) / 100

/-! ## Lens order form

src/unnamed/part_000, lensOrderSchema.  The three required enum selects are
`Option` (none = undefined, a type-level required failure); every other field
is an optional string.  As for the payment schema, the `.superRefine` body
runs only when no required enum is missing. -/

inductive LensSupply where
  | leftAndRight
  | leftOnly
  | rightOnly
deriving DecidableEq

inductive LensTreatment where
  | uncuts
  | edgeAndFit
  | other
deriving DecidableEq

inductive FrameChoice where
  | toCome
  | enclosed
  | lensOnly
  | labSupply
  | call
  | other
deriving DecidableEq

inductive ArCoating where
  | yes
  | no
deriving DecidableEq

structure LensOrderData where
  rightOdSph : Option String
  rightOdCyl : Option String
  rightOdAxis : Option String
  leftOsSph : Option String
  leftOsCyl : Option String
  leftOsAxis : Option String
  add : Option String
  lensType : Option String
  lensMaterial : Option String
  lensThickness : Option String
  lensColour : Option String
  lensCoating : Option String
  lensUse : Option String
  arCoating : Option ArCoating
  lensSupply : Option LensSupply
  lensTreatment : Option LensTreatment
  lensTreatmentOther : Option String
  frame : Option FrameChoice
  frameOther : Option String
  otherInstructions : Option String

/-- Field-level checks of lensOrderSchema: the three required enum fields
report their required_error when missing; all other fields are optional. -/
def lensOrderFieldIssues (d : LensOrderData) : List Issue :=
  (match d.lensSupply with
    | none => [⟨"lensSupply", "Lens supply is required"⟩]
    | some _ => []) ++
  (match d.lensTreatment with
    | none => [⟨"lensTreatment", "Lens treatment is required"⟩]
    | some _ => []) ++
  (match d.frame with
    | none => [⟨"frame", "Frame selection is required"⟩]
    | some _ => [])

/-- The `.superRefine` body of lensOrderSchema: "Other" lens treatment and
"Other" frame each require their free-text companion to be non-blank. -/
def lensOrderRefineIssues (d : LensOrderData) : List Issue :=
  (if d.lensTreatment = some LensTreatment.other ∧ isBlank d.lensTreatmentOther
    then [⟨"lensTreatmentOther", "Please specify the lens treatment."⟩] else []) ++
  (if d.frame = some FrameChoice.other ∧ isBlank d.frameOther
    then [⟨"frameOther", "Please specify the frame."⟩] else [])

/-- A full validation pass over the lens order form: the refinements run only
when none of the three required enums is missing. -/
def lensOrderParseIssues (d : LensOrderData) : List Issue :=
  if d.lensSupply.isSome ∧ d.lensTreatment.isSome ∧ d.frame.isSome
  then lensOrderFieldIssues d ++ lensOrderRefineIssues d
  else lensOrderFieldIssues d

/-! ## Incident report payload

src/Incident-Report-v2.tsx, IncidentReportForm.  The form state holds the
defaultValues of useForm overwritten by user edits, and handleSubmit passes
exactly that snapshot to onSubmit, which serialises it
(console.log of the data object).  A payload is the ordered list of
(field name, value) pairs of the snapshot. -/

structure PersonEntry where
  firstName : String
  lastName : String
  role : String
  personPhone : String
  personEmail : String
deriving DecidableEq

structure WitnessEntry where
  name : String
  phone : String
  email : String
deriving DecidableEq

/-- A JSON value of the incident payload: a string field, the persons array
or the witnesses array. -/
inductive FieldValue where
  | str : String → FieldValue
  | persons : List PersonEntry → FieldValue
  | witnesses : List WitnessEntry → FieldValue
deriving DecidableEq

/-- The incident-report form snapshot: exactly the fields initialised by the
useForm defaultValues of IncidentReportForm. -/
structure IncidentValues where
  dateOfIncident : String
  timeOfIncident : String
  location : String
  reportedByFirstName : String
  reportedByLastName : String
  reportedByRole : String
  contactPhone : String
  contactEmail : String
  persons : List PersonEntry
  incidentType : String
  incidentDescription : String
  wasInjured : String
  injuryDescription : String
  firstAid : String
  medicalTreatment : String
  treatedBy : String
  witnesses : List WitnessEntry
  immediateActions : String
  reportedTo : String
  dateReported : String
  actionsPlanned : String
  followUp : String
  followUpBy : String
deriving DecidableEq

/-- Serialise a snapshot to its submission payload: every field of the form
state appears, in declaration order. -/
def serializeIncident (v : IncidentValues) : List (String × FieldValue) :=
  [ ("dateOfIncident", FieldValue.str v.dateOfIncident),
    ("timeOfIncident", FieldValue.str v.timeOfIncident),
    ("location", FieldValue.str v.location),
    ("reportedByFirstName", FieldValue.str v.reportedByFirstName),
    ("reportedByLastName", FieldValue.str v.reportedByLastName),
    ("reportedByRole", FieldValue.str v.reportedByRole),
    ("contactPhone", FieldValue.str v.contactPhone),
    ("contactEmail", FieldValue.str v.contactEmail),
    ("persons", FieldValue.persons v.persons),
    ("incidentType", FieldValue.str v.incidentType),
    ("incidentDescription", FieldValue.str v.incidentDescription),
    ("wasInjured", FieldValue.str v.wasInjured),
    ("injuryDescription", FieldValue.str v.injuryDescription),
    ("firstAid", FieldValue.str v.firstAid),
    ("medicalTreatment", FieldValue.str v.medicalTreatment),
    ("treatedBy", FieldValue.str v.treatedBy),
    ("witnesses", FieldValue.witnesses v.witnesses),
    ("immediateActions", FieldValue.str v.immediateActions),
    ("reportedTo", FieldValue.str v.reportedTo),
    ("dateReported", FieldValue.str v.dateReported),
    ("actionsPlanned", FieldValue.str v.actionsPlanned),
    ("followUp", FieldValue.str v.followUp),
    ("followUpBy", FieldValue.str v.followUpBy) ]

/-- Look a field path up in a payload (first match). -/
def lookupField : List (String × FieldValue) → String → Option FieldValue
  | [], _ => none
  | (k, v) :: rest, key => if k = key then some v else lookupField rest key

/-- Read a payload back into a snapshot, requiring every field to be present
with a value of the right shape. -/
def deserializeIncident (l : List (String × FieldValue)) : Option IncidentValues :=
  match lookupField l "dateOfIncident", lookupField l "timeOfIncident",
        lookupField l "location", lookupField l "reportedByFirstName",
        lookupField l "reportedByLastName", lookupField l "reportedByRole",
        lookupField l "contactPhone", lookupField l "contactEmail",
        lookupField l "persons", lookupField l "incidentType",
        lookupField l "incidentDescription", lookupField l "wasInjured",
        lookupField l "injuryDescription", lookupField l "firstAid",
        lookupField l "medicalTreatment", lookupField l "treatedBy",
        lookupField l "witnesses", lookupField l "immediateActions",
        lookupField l "reportedTo", lookupField l "dateReported",
        lookupField l "actionsPlanned", lookupField l "followUp",
        lookupField l "followUpBy" with
  | some (FieldValue.str a1), some (FieldValue.str a2), some (FieldValue.str a3),
    some (FieldValue.str a4), some (FieldValue.str a5), some (FieldValue.str a6),
    some (FieldValue.str a7), some (FieldValue.str a8), some (FieldValue.persons a9),
    some (FieldValue.str a10), some (FieldValue.str a11), some (FieldValue.str a12),
    some (FieldValue.str a13), some (FieldValue.str a14), some (FieldValue.str a15),
    some (FieldValue.str a16), some (FieldValue.witnesses a17), some (FieldValue.str a18),
    some (FieldValue.str a19), some (FieldValue.str a20), some (FieldValue.str a21),
    some (FieldValue.str a22), some (FieldValue.str a23) =>
      some ⟨a1, a2, a3, a4, a5, a6, a7, a8, a9, a10, a11, a12, a13, a14, a15,
            a16, a17, a18, a19, a20, a21, a22, a23⟩
  | _, _, _, _, _, _, _, _, _, _, _, _, _, _, _, _, _, _, _, _, _, _, _ => none

/-- The defaultValues literal of IncidentReportForm: every optional text
field starts as the empty string, persons starts with one blank entry,
witnesses starts empty. -/
def incidentDefaultValues : IncidentValues :=
  ⟨"", "", "", "", "", "", "", "",
   [⟨"", "", "", "", ""⟩],
   "", "", "", "", "", "", "",
   [],
   "", "", "", "", "", ""⟩

/-! ## Helper lemmas -/

lemma countWeekdays_le (n : Nat) : ∀ s : Int, countWeekdays s n ≤ n := by
  induction n with
  | zero => intro s; simp [countWeekdays]
  | succ k ih =>
    intro s
    simp only [countWeekdays]
    have := ih (s + 1)
    split <;> omega

lemma countWeekdays_all_weekend (n : Nat) :
    ∀ s : Int, (∀ i : Nat, i < n → isWeekend (s + i) = true) → countWeekdays s n = 0 := by
  induction n with
  | zero => intro s _; simp [countWeekdays]
  | succ k ih =>
    intro s h
    have h0 : isWeekend s = true := by
      have := h 0 (Nat.succ_pos k)
      simpa using this
    have hrest : countWeekdays (s + 1) k = 0 := by
      apply ih
      intro i hi
      have := h (i + 1) (by omega)
      have harith : s + 1 + (i : Int) = s + ((i : Nat) + 1 : Nat) := by push_cast; ring
      rw [harith]
      exact this
    simp [countWeekdays, h0, hrest]

lemma countPath_append (l1 l2 : List Issue) (p : String) :
    countPath (l1 ++ l2) p = countPath l1 p + countPath l2 p := by
  induction l1 with
  | nil => simp [countPath]
  | cons i rest ih => simp [countPath, ih]; ring

lemma mem_ite_nil (a b : Issue) (c : Prop) [Decidable c] :
    (a ∈ (if c then [b] else [])) ↔ (c ∧ a = b) := by
  split_ifs with h <;> simp [h]

lemma countPath_ite_nil (b : Issue) (c : Prop) [Decidable c] (p : String) :
    countPath (if c then [b] else []) p = if c ∧ b.path = p then 1 else 0 := by
  by_cases hc : c <;> by_cases hp : b.path = p <;> simp [countPath, hc, hp]

lemma clamp_eq_max (x : ℚ) : (if x < 0 then 0 else x) = max 0 x := by
  split_ifs with h
  · rw [max_eq_left (le_of_lt h)]
  · rw [max_eq_right (not_lt.mp h)]

/-! ## Claims -/

/-- C9: the business-day counting loop is total: missing dates and inverted
ranges return 0 immediately, and when start ≤ end the count satisfies the
one-day-per-iteration recurrence (the cursor advances exactly one calendar
day per loop iteration) and is bounded by the number of days in the range. -/
theorem diffBusinessDays_total_and_steps_one_day :
    (∀ oe, diffBusinessDaysInclusive none oe = 0)
    ∧ (∀ s, diffBusinessDaysInclusive (some s) none = 0)
    ∧ (∀ s e : Int, e < s → diffBusinessDaysInclusive (some s) (some e) = 0)
    ∧ (∀ s e : Int, s ≤ e →
        diffBusinessDaysInclusive (some s) (some e)
          = (if isWeekend s then 0 else 1)
            + diffBusinessDaysInclusive (some (s + 1)) (some e))
    ∧ (∀ s e : Int, s ≤ e →
        diffBusinessDaysInclusive (some s) (some e) ≤ (e - s + 1).toNat) := by
  refine ⟨fun oe => rfl, fun s => rfl, ?_, ?_, ?_⟩
  · intro s e h
    simp [diffBusinessDaysInclusive, h]
  · intro s e h
    have hns : ¬ e < s := not_lt.mpr h
    rcases eq_or_lt_of_le h with heq | hlt
    · subst heq
      have h1 : (s - s + 1).toNat = 1 := by omega
      simp [diffBusinessDaysInclusive, hns, h1, countWeekdays]
    · have hns1 : ¬ e < s + 1 := by omega
      have h1 : (e - s + 1).toNat = (e - (s + 1) + 1).toNat + 1 := by omega
      simp only [diffBusinessDaysInclusive, if_neg hns, if_neg hns1, h1, countWeekdays]
  · intro s e h
    have hns : ¬ e < s := not_lt.mpr h
    simp only [diffBusinessDaysInclusive, if_neg hns]
    exact countWeekdays_le _ s

/-- C9 witness: the recurrence instantiated for the week
2025-01-06 .. 2025-01-10. -/
theorem diffBusinessDays_total_and_steps_one_day_witness :
    (20094 : Int) ≤ 20098
    ∧ diffBusinessDaysInclusive (some 20094) (some 20098)
        = (if isWeekend 20094 then 0 else 1)
          + diffBusinessDaysInclusive (some (20094 + 1)) (some 20098) :=
  ⟨by decide, diffBusinessDays_total_and_steps_one_day.2.2.2.1 20094 20098 (by decide)⟩

/-- C4: leave-duration edge cases: an inverted range yields 0; a range of
weekend days only yields 0; the result is never negative; a single weekday
with no half-day flags yields 1, a single weekend day 0. -/
theorem totalDays_edge_cases :
    (∀ (s e : Int) (hs he : Bool), e < s → totalDays s e hs he = 0)
    ∧ (∀ (s e : Int) (hs he : Bool), s ≤ e →
        (∀ d : Int, s ≤ d → d ≤ e → isWeekend d = true) → totalDays s e hs he = 0)
    ∧ (∀ (s e : Int) (hs he : Bool), 0 ≤ totalDays s e hs he)
    ∧ (∀ d : Int, totalDays d d false false = if isWeekend d then 0 else 1) := by
  refine ⟨?_, ?_, ?_, ?_⟩
  · intro s e hs he h
    simp [totalDays, diffBusinessDaysInclusive, h]
  · intro s e hs he hle hweekend
    have hcount : diffBusinessDaysInclusive (some s) (some e) = 0 := by
      have hns : ¬ e < s := not_lt.mpr hle
      simp only [diffBusinessDaysInclusive, if_neg hns]
      apply countWeekdays_all_weekend
      intro i hi
      apply hweekend <;> omega
    simp [totalDays, hcount]
  · intro s e hs he
    simp only [totalDays]
    split_ifs <;> first | rfl | linarith
  · intro d
    have h1 : (d - d + 1).toNat = 1 := by omega
    by_cases hw : isWeekend d
    · simp [totalDays, diffBusinessDaysInclusive, h1, countWeekdays, hw]
    · have hd : diffBusinessDaysInclusive (some d) (some d) = 1 := by
        simp [diffBusinessDaysInclusive, h1, countWeekdays, hw]
      simp [totalDays, hd, hw]

/-- C4 witness: the edge cases instantiated: inverted range 5..3, and the
single weekday 2025-01-06. -/
theorem totalDays_edge_cases_witness :
    ((3 : Int) < 5 ∧ totalDays 5 3 true true = 0)
    ∧ ((20094 : Int) ≤ 20094
        ∧ (∀ d : Int, 20094 ≤ d → d ≤ 20092 → isWeekend d = true)
        ∧ totalDays 20094 20094 false false = if isWeekend 20094 then 0 else 1) :=
  ⟨⟨by decide, totalDays_edge_cases.1 5 3 true true (by decide)⟩,
   ⟨by decide, fun d h1 h2 => absurd (le_trans h1 h2) (by decide),
    totalDays_edge_cases.2.2.2 20094⟩⟩

/-- C1 counterexample: Saturday 2025-01-04 to Monday 2025-01-06 with the
start half-day flag set.  The start boundary is a weekend day, so per the
claim the flag would deduct nothing and the span would stay 1; the code
deducts 0.5 unconditionally and returns 1/2. -/
theorem totalDays_weekend_flag_counterexample :
    isWeekend (daysFromCivil 2025 1 4) = true
    ∧ totalDays (daysFromCivil 2025 1 4) (daysFromCivil 2025 1 6) false false = 1
    ∧ totalDays (daysFromCivil 2025 1 4) (daysFromCivil 2025 1 6) true false = 1/2
    ∧ totalDays (daysFromCivil 2025 1 4) (daysFromCivil 2025 1 6) true false
        ≠ totalDays (daysFromCivil 2025 1 4) (daysFromCivil 2025 1 6) false false := by
  have hd : diffBusinessDaysInclusive (some (daysFromCivil 2025 1 4))
      (some (daysFromCivil 2025 1 6)) = 1 := by decide
  have h2 : totalDays (daysFromCivil 2025 1 4) (daysFromCivil 2025 1 6) false false = 1 := by
    norm_num [totalDays, hd]
  have h3 : totalDays (daysFromCivil 2025 1 4) (daysFromCivil 2025 1 6) true false = 1/2 := by
    norm_num [totalDays, hd]
  exact ⟨by decide, h2, h3, by rw [h2, h3]; norm_num⟩

/-- C1 (amended): whenever the business-day count is positive, 0.5 is
subtracted for each half-day flag that is set, regardless of whether the
corresponding boundary day is a weekday; the end-boundary deduction applies
only when start ≠ end, so a single weekday leave with both flags set yields
1/2; Monday 2025-01-06 to Friday 2025-01-10 yields 5 with no half-days and
9/2 with the start half-day flag. -/
theorem totalDays_half_day_deductions :
    (∀ (s e : Int) (hs he : Bool), 0 < diffBusinessDaysInclusive (some s) (some e) →
      totalDays s e hs he
        = max 0 ((diffBusinessDaysInclusive (some s) (some e) : ℚ)
            - (if hs then 1/2 else 0)
            - (if he ∧ s ≠ e then 1/2 else 0)))
    ∧ (∀ d : Int, isWeekend d = false → totalDays d d true true = 1/2)
    ∧ totalDays (daysFromCivil 2025 1 6) (daysFromCivil 2025 1 10) false false = 5
    ∧ totalDays (daysFromCivil 2025 1 6) (daysFromCivil 2025 1 10) true false = 9/2 := by
  have hd : diffBusinessDaysInclusive (some (daysFromCivil 2025 1 6))
      (some (daysFromCivil 2025 1 10)) = 5 := by decide
  refine ⟨?_, ?_, by norm_num [totalDays, hd], by norm_num [totalDays, hd]⟩
  · intro s e hs he hpos
    have hne : ((diffBusinessDaysInclusive (some s) (some e) : ℚ)) ≠ 0 := by
      exact_mod_cast Nat.pos_iff_ne_zero.mp hpos
    simp only [totalDays, if_neg hne]
    rw [← clamp_eq_max]
    rcases hs with _ | _ <;> rcases he with _ | _ <;>
      by_cases hse : s ≠ e <;> simp [hse]
  · intro d hw
    have h1 : (d - d + 1).toNat = 1 := by omega
    have hd : diffBusinessDaysInclusive (some d) (some d) = 1 := by
      simp [diffBusinessDaysInclusive, h1, countWeekdays, hw]
    simp [totalDays, hd]
    norm_num

/-- C1 witness: the amended deduction rule instantiated for Monday
2025-01-06 to Friday 2025-01-10 with the start half-day flag, and the
single-weekday double-flag rule at Monday 2025-01-06. -/
theorem totalDays_half_day_deductions_witness :
    (0 < diffBusinessDaysInclusive (some 20094) (some 20098)
      ∧ totalDays 20094 20098 true false
          = max 0 ((diffBusinessDaysInclusive (some 20094) (some 20098) : ℚ)
              - (if (true : Bool) then 1/2 else 0)
              - (if (false : Bool) ∧ (20094 : Int) ≠ 20098 then 1/2 else 0)))
    ∧ (isWeekend 20094 = false ∧ totalDays 20094 20094 true true = 1/2) :=
  ⟨⟨by decide, totalDays_half_day_deductions.1 20094 20098 true false (by decide)⟩,
   ⟨by decide, totalDays_half_day_deductions.2.1 20094 (by decide)⟩⟩

/-- C5: addInterval semantics per unit: "days" adds exactly N calendar days,
"weeks" adds exactly N×7 calendar days, "months" adds N to the month
component with day-of-month overflow rolling into the following month; in
particular 2 weeks from 2025-01-01 is 2025-01-15, and one month from
2025-01-31 rolls over to 2025-03-03. -/
theorem addInterval_units :
    (∀ (d : CivilDate) (n : Nat), addInterval d n "days" = addDays d n)
    ∧ (∀ (d : CivilDate) (n : Nat), addInterval d n "weeks" = addDays d (n * 7))
    ∧ (∀ (d : CivilDate) (n : Nat), addInterval d n "months" = addMonths d n)
    ∧ addInterval ⟨2025, 1, 1⟩ 2 "weeks" = ⟨2025, 1, 15⟩
    ∧ addInterval ⟨2025, 1, 31⟩ 1 "months" = ⟨2025, 3, 3⟩ := by
  refine ⟨fun d n => by simp [addInterval], fun d n => by simp [addInterval],
    fun d n => by simp [addInterval], by decide, by decide⟩

/-- C6: the provisional-date sync effect never overwrites a stored date: for
any change of the interval amount and unit, a field already holding a date
keeps it, and whenever the effect changes the field at all, the field was
empty and receives the computed date. -/
theorem syncProvisional_never_overwrites :
    (∀ (now : CivilDate) (st : FollowUpState) (v : Option Nat) (u : String) (d : CivilDate),
      st.provisionalFollowUpDate = some d →
      (syncProvisionalEffect now
        { st with followUpIntervalValue := v, followUpIntervalUnit := u
        }).provisionalFollowUpDate = some d)
    ∧ (∀ (now : CivilDate) (st : FollowUpState),
        (syncProvisionalEffect now st).provisionalFollowUpDate ≠ st.provisionalFollowUpDate →
        st.provisionalFollowUpDate = none
        ∧ (syncProvisionalEffect now st).provisionalFollowUpDate
            = computedProvisionalDate now st) := by
  constructor
  · intro now st v u d h
    simp [syncProvisionalEffect, h]
  · intro now st h
    unfold syncProvisionalEffect at h ⊢
    split_ifs at h ⊢ with hcond
    · exact ⟨Option.isNone_iff_eq_none.mp hcond.2.2, rfl⟩
    · exact absurd rfl h

/-- A sample follow-up state holding a user-chosen provisional date. -/
def sampleFollowUp : FollowUpState :=
  ⟨true, some 2, "weeks", some ⟨2025, 2, 1⟩, true⟩

/-- C6 witness: changing the interval to 5 days leaves the stored date
2025-02-01 untouched. -/
theorem syncProvisional_never_overwrites_witness :
    sampleFollowUp.provisionalFollowUpDate = some ⟨2025, 2, 1⟩
    ∧ (syncProvisionalEffect ⟨2025, 1, 1⟩
        { sampleFollowUp with followUpIntervalValue := some 5, followUpIntervalUnit := "days"
        }).provisionalFollowUpDate = some ⟨2025, 2, 1⟩ :=
  ⟨rfl, syncProvisional_never_overwrites.1 ⟨2025, 1, 1⟩ sampleFollowUp
    (some 5) "days" ⟨2025, 2, 1⟩ rfl⟩

/-- C2: with a payment method selected, validation reports the over-balance
issue iff amount > balance and the positivity issue iff amount ≤ 0, and the
displayed remaining balance is max(balance − amount, 0), never negative. -/
theorem paymentValidation_balance_guard :
    ∀ (d : PaymentData) (m : PaymentMethod), 0 ≤ d.balance → d.paymentMethod = some m →
      ((Issue.mk "amountPaidToday" "Amount cannot exceed balance" ∈ paymentParseIssues d)
          ↔ d.balance < d.amountPaidToday)
      ∧ ((Issue.mk "amountPaidToday" "Amount must be greater than 0" ∈ paymentParseIssues d)
          ↔ d.amountPaidToday ≤ 0)
      ∧ remainingBalance d.balance d.amountPaidToday = max (d.balance - d.amountPaidToday) 0
      ∧ 0 ≤ remainingBalance d.balance d.amountPaidToday := by
  intro d m _ hm
  refine ⟨?_, ?_, rfl, le_max_right _ _⟩
  · simp [paymentParseIssues, hm, paymentFieldIssues, paymentRefineIssues, mem_ite_nil]
  · simp [paymentParseIssues, hm, paymentFieldIssues, paymentRefineIssues, mem_ite_nil]

/-- The mock payment snapshot of the source (balance 150) with an entered
amount of 200 and method Cash. -/
def samplePayment : PaymentData :=
  ⟨"ORD-12345", "Jane Doe", "2025-08-01", 120, 80, 0, 200, 50, 150, 200,
   some PaymentMethod.cash, some "", some "", "Alice", "2025-08-01"⟩

/-- C2 witness: balance 150, amount 200: the over-balance issue is present
and the remaining balance clamps at 0. -/
theorem paymentValidation_balance_guard_witness :
    (0 : ℚ) ≤ samplePayment.balance
    ∧ samplePayment.paymentMethod = some PaymentMethod.cash
    ∧ (((Issue.mk "amountPaidToday" "Amount cannot exceed balance"
            ∈ paymentParseIssues samplePayment)
          ↔ samplePayment.balance < samplePayment.amountPaidToday)
        ∧ ((Issue.mk "amountPaidToday" "Amount must be greater than 0"
            ∈ paymentParseIssues samplePayment)
          ↔ samplePayment.amountPaidToday ≤ 0)
        ∧ remainingBalance samplePayment.balance samplePayment.amountPaidToday
            = max (samplePayment.balance - samplePayment.amountPaidToday) 0
        ∧ 0 ≤ remainingBalance samplePayment.balance samplePayment.amountPaidToday) :=
  ⟨by norm_num [samplePayment], rfl,
   paymentValidation_balance_guard samplePayment PaymentMethod.cash
     (by norm_num [samplePayment]) rfl⟩

/-- C10: the payment-reference issue is emitted iff the method is Card or
Bank Transfer and the reference is blank after trimming; for other methods
(or no method yet) no such issue is emitted. -/
theorem paymentReference_requirement :
    ∀ d : PaymentData,
      (Issue.mk "paymentReferenceNumber" "Payment reference is required for this method"
          ∈ paymentParseIssues d)
      ↔ ((d.paymentMethod = some PaymentMethod.card
            ∨ d.paymentMethod = some PaymentMethod.bankTransfer)
          ∧ isBlank d.paymentReferenceNumber = true) := by
  intro d
  match hm : d.paymentMethod with
  | none =>
    simp [paymentParseIssues, hm, paymentFieldIssues, mem_ite_nil]
  | some m =>
    simp [paymentParseIssues, hm, paymentFieldIssues, paymentRefineIssues, mem_ite_nil]

/-- The payment snapshot exhibiting a sub-cent amount: balance 150.00 and
amount 150.004 (= 150 + 1/250). -/
def c7Payment : PaymentData :=
  ⟨"ORD-12345", "Jane Doe", "2025-08-01", 120, 80, 0, 200, 50, 150, 150 + 1/250,
   some PaymentMethod.cash, some "", some "", "Alice", "2025-08-01"⟩

/-- C7 counterexample: with balance 150.00 and amount 150.004 the code emits
the over-balance issue, although both values round to the same cent value
150.00 — so the comparison is made on raw values, not on values rounded to
the cent. -/
theorem payment_comparison_not_rounded_counterexample :
    (Issue.mk "amountPaidToday" "Amount cannot exceed balance"
        ∈ paymentParseIssues c7Payment)
    ∧ roundToCent c7Payment.amountPaidToday = roundToCent c7Payment.balance
    ∧ ¬ (roundToCent c7Payment.balance < roundToCent c7Payment.amountPaidToday) := by
  have hr1 : roundToCent c7Payment.amountPaidToday = 150 := by
    norm_num [roundToCent, c7Payment, round_eq]
  have hr2 : roundToCent c7Payment.balance = 150 := by
    norm_num [roundToCent, c7Payment, round_eq]
  refine ⟨?_, by rw [hr1, hr2], by rw [hr1, hr2]; norm_num⟩
  simp [paymentParseIssues, c7Payment, paymentFieldIssues, paymentRefineIssues, mem_ite_nil]

/-- C7 (amended): the over-balance comparison and the remaining-balance
computation are performed on the raw entered values, with no rounding to the
cent: the issue is emitted iff raw amount > raw balance, and the preview is
max(raw balance − raw amount, 0). -/
theorem payment_rawValue_guard :
    ∀ (d : PaymentData) (m : PaymentMethod), d.paymentMethod = some m →
      ((Issue.mk "amountPaidToday" "Amount cannot exceed balance" ∈ paymentParseIssues d)
        ↔ d.balance < d.amountPaidToday)
      ∧ remainingBalance d.balance d.amountPaidToday
          = max (d.balance - d.amountPaidToday) 0 := by
  intro d m hm
  refine ⟨?_, rfl⟩
  simp [paymentParseIssues, hm, paymentFieldIssues, paymentRefineIssues, mem_ite_nil]

/-- C7 witness: the raw-value guard instantiated at the sub-cent snapshot. -/
theorem payment_rawValue_guard_witness :
    c7Payment.paymentMethod = some PaymentMethod.cash
    ∧ (((Issue.mk "amountPaidToday" "Amount cannot exceed balance"
            ∈ paymentParseIssues c7Payment)
        ↔ c7Payment.balance < c7Payment.amountPaidToday)
      ∧ remainingBalance c7Payment.balance c7Payment.amountPaidToday
          = max (c7Payment.balance - c7Payment.amountPaidToday) 0) :=
  ⟨rfl, payment_rawValue_guard c7Payment PaymentMethod.cash rfl⟩

/-- C3: for each conditional-requirement pair — lensTreatment = "Other" /
lensTreatmentOther, frame = "Other" / frameOther, paymentMethod = "Other" /
paymentMethodOther — a validation pass emits exactly one issue against the
dependent field iff the governing field equals the trigger value and the
dependent field is blank after trimming; an absent governing field never
matches, and once the governing field moves away from the trigger the count
is 0 again. -/
theorem conditionalRequirement_other_fields :
    ∀ (ld : LensOrderData) (pd : PaymentData),
      (ld.lensSupply.isSome = true → ld.frame.isSome = true →
        countPath (lensOrderParseIssues ld) "lensTreatmentOther"
          = if ld.lensTreatment = some LensTreatment.other ∧ isBlank ld.lensTreatmentOther
            then 1 else 0)
      ∧ (ld.lensSupply.isSome = true → ld.lensTreatment.isSome = true →
        countPath (lensOrderParseIssues ld) "frameOther"
          = if ld.frame = some FrameChoice.other ∧ isBlank ld.frameOther then 1 else 0)
      ∧ (countPath (paymentParseIssues pd) "paymentMethodOther"
          = if pd.paymentMethod = some PaymentMethod.other ∧ isBlank pd.paymentMethodOther
            then 1 else 0) := by
  intro ld pd
  refine ⟨?_, ?_, ?_⟩
  · intro h1 h2
    rcases hsup : ld.lensSupply with _ | sup
    · rw [hsup] at h1; simp at h1
    rcases hfr : ld.frame with _ | fr
    · rw [hfr] at h2; simp at h2
    rcases ht : ld.lensTreatment with _ | t
    · simp [lensOrderParseIssues, hsup, hfr, ht, lensOrderFieldIssues, countPath]
    · simp [lensOrderParseIssues, hsup, hfr, ht, lensOrderFieldIssues, lensOrderRefineIssues,
        countPath_append, countPath_ite_nil, countPath]
  · intro h1 h2
    rcases hsup : ld.lensSupply with _ | sup
    · rw [hsup] at h1; simp at h1
    rcases ht : ld.lensTreatment with _ | t
    · rw [ht] at h2; simp at h2
    rcases hfr : ld.frame with _ | fr
    · simp [lensOrderParseIssues, hsup, hfr, ht, lensOrderFieldIssues, countPath]
    · simp [lensOrderParseIssues, hsup, hfr, ht, lensOrderFieldIssues, lensOrderRefineIssues,
        countPath_append, countPath_ite_nil, countPath]
  · rcases hm : pd.paymentMethod with _ | m
    · simp [paymentParseIssues, hm, paymentFieldIssues, countPath_append, countPath_ite_nil,
        countPath]
    · simp [paymentParseIssues, hm, paymentFieldIssues, paymentRefineIssues, countPath_append,
        countPath_ite_nil, countPath]

/-- A lens order snapshot: lens treatment set to "Other" with a blank
specification, frame chosen. -/
def sampleLensOrder : LensOrderData :=
  ⟨some "-1.25", some "-0.50", some "120", some "-1.00", some "-0.75", some "85",
   some "+2.00", some "Single Vision", some "1.6 Index", some "Standard", some "Clear",
   some "Anti-Reflective", some "Distance", some ArCoating.yes,
   some LensSupply.leftAndRight, some LensTreatment.other, some "",
   some FrameChoice.toCome, none, none⟩

/-- C3 witness: the lens-treatment pair instantiated at a snapshot with
treatment "Other" and a blank specification field. -/
theorem conditionalRequirement_other_fields_witness :
    sampleLensOrder.lensSupply.isSome = true
    ∧ sampleLensOrder.frame.isSome = true
    ∧ countPath (lensOrderParseIssues sampleLensOrder) "lensTreatmentOther"
        = if sampleLensOrder.lensTreatment = some LensTreatment.other
              ∧ isBlank sampleLensOrder.lensTreatmentOther
          then 1 else 0 :=
  ⟨rfl, rfl, (conditionalRequirement_other_fields sampleLensOrder samplePayment).1 rfl rfl⟩

/-- C8 counterexample: at the untouched default snapshot the optional field
injuryDescription appears in the submission payload as the empty string, not
as an absent field. -/
theorem incident_untouched_field_not_absent :
    lookupField (serializeIncident incidentDefaultValues) "injuryDescription"
      = some (FieldValue.str "")
    ∧ lookupField (serializeIncident incidentDefaultValues) "injuryDescription" ≠ none := by
  have h : lookupField (serializeIncident incidentDefaultValues) "injuryDescription"
      = some (FieldValue.str "") := rfl
  exact ⟨h, by rw [h]; simp⟩

/-- C8 (amended): serialising a snapshot to the submission payload and
reading it back preserves every field exactly, but optional fields the user
never touched appear in the payload as their default empty strings — present,
not absent. -/
theorem incidentPayload_roundtrip :
    (∀ v : IncidentValues, deserializeIncident (serializeIncident v) = some v)
    ∧ lookupField (serializeIncident incidentDefaultValues) "injuryDescription"
        = some (FieldValue.str "") :=
  ⟨fun _ => rfl, rfl⟩
